import Mathlib

/-!
Shallow embedding of the todo HTTP API of `src/app.py` (Flask + SQLAlchemy).

The three mutating handlers (`create_todo`, `update_todo`, `delete_todo`) and the
read handler (`list_todos`) are translated as pure functions from a store state
(the `todos` table plus the id sequence) and a request body to an HTTP response
and a new store state.  Flask's error handlers are folded into the response
values: `abort(404, ...)` reaches `handle_not_found`, which returns the fixed
body `{"error": "Not found"}` and drops the description; `abort(400, d)` reaches
`handle_bad_request`, which returns `{"error": str(e)}` where `str(e)` of a
werkzeug `BadRequest` is `"400 Bad Request: " ++ d`; any non-HTTP exception
(such as an `AttributeError` from calling `.strip()` on a non-string) reaches
`handle_exception`, which returns `{"error": "Internal server error"}` with 500.
-/

/-- The whitespace characters stripped by Python's `str.strip()` (ASCII subset). -/
def isPyWs (c : Char) : Bool :=
  c = ' ' || c = '\t' || c = '\n' || c = '\r' || c = '\x0b' || c = '\x0c'

/-- Leading and trailing whitespace removed from a character list. -/
def stripChars (cs : List Char) : List Char :=
  ((cs.dropWhile isPyWs).reverse.dropWhile isPyWs).reverse

/-- Python's `str.strip()` with no arguments. -/
def pyStrip (s : String) : String :=
  String.mk (stripChars s.toList)

/-- A JSON value that may appear as a field of a request body.  The handlers
inspect a non-string value only through its truthiness (`bool(x)`), so arrays
and nested objects are represented abstractly by whether they are nonempty. -/
inductive Json where
  | null
  | bool (b : Bool)
  | num (n : Int)
  | str (s : String)
  | arr (nonempty : Bool)
  | obj (nonempty : Bool)
deriving Repr, DecidableEq

/-- Python truthiness `bool(x)` of a JSON value. -/
def Json.truthy : Json → Bool
  | .null => false
  | .bool b => b
  | .num n => n != 0
  | .str s => s != ""
  | .arr ne => ne
  | .obj ne => ne

/-- The parsed request body as the handlers see it: a key/value object of which
only the keys `"title"` and `"completed"` are ever read.  A field is `none`
exactly when the key is absent from the object. -/
structure Body where
  title : Option Json
  completed : Option Json
deriving Repr, DecidableEq

/-- The object `{}` that `request.get_json(silent=True) or {}` produces for an
absent, malformed or falsy body. -/
def Body.emptyObj : Body := { title := none, completed := none }

/-- A row of the `todos` table (`class Todo` in `src/app.py`): integer primary
key `id`, string `title`, boolean `completed`.  `to_dict` exposes exactly these
three fields, so a row doubles as its JSON representation. -/
structure Todo where
  id : Nat
  title : String
  completed : Bool
deriving Repr, DecidableEq

/-- Modelled from the spec: the store behind SQLAlchemy/PostgreSQL is not part
of `src/`; per the spec, `id` is "assigned by the store on creation,
monotonically increasing, never reused or mutated" (the `autoincrement=True`
primary key of `class Todo`).  `rows` is the table content and `nextId` the
state of the id sequence, which only ever moves forward. -/
structure Store where
  rows : List Todo
  nextId : Nat
deriving Repr, DecidableEq

/-- The store at startup: empty table, id sequence at 1. -/
def emptyStore : Store := { rows := [], nextId := 1 }

/-- A JSON response body.  `todoObj t` stands for the object produced by
`jsonify(t.to_dict())`, i.e. `{"id": t.id, "title": t.title, "completed":
t.completed}`; `errObj m` stands for `{"error": m}`. -/
inductive RespBody where
  | todoObj (t : Todo)
  | todoList (ts : List Todo)
  | errObj (msg : String)
  | empty
deriving Repr, DecidableEq

/-- An HTTP response: status code and JSON body. -/
structure HResp where
  status : Nat
  body : RespBody
deriving Repr, DecidableEq

/-- `data.get("title") or ""`: the field value when present and truthy,
otherwise the empty string. -/
def pyOrEmptyStr (v : Option Json) : Json :=
  match v with
  | none => .str ""
  | some j => if j.truthy then j else .str ""

/-- `(data.get("title") or "").strip()`.  Calling `.strip()` on a non-string
(a truthy number, array, ...) raises `AttributeError`, modelled as `.error ()`,
which the global exception handler converts into a 500. -/
def pyTitleField (v : Option Json) : Except Unit String :=
  match pyOrEmptyStr v with
  | .str s => .ok (pyStrip s)
  | _ => .error ()

/-- The descending-id order of `order_by(Todo.id.desc())`. -/
def byIdDesc (a b : Todo) : Prop := b.id ≤ a.id

instance : DecidableRel byIdDesc := fun a b => Nat.decLe b.id a.id

instance : IsTotal Todo byIdDesc := ⟨fun a b => Nat.le_total b.id a.id⟩

instance : IsTrans Todo byIdDesc := ⟨fun _ _ _ h1 h2 => Nat.le_trans h2 h1⟩

/-- `GET /api/todos` (`list_todos` in `src/app.py`): all rows ordered by id
descending, as a 200 response. -/
def list_todos (s : Store) : HResp :=
  { status := 200, body := .todoList (List.insertionSort byIdDesc s.rows) }

/-- `POST /api/todos` (`create_todo` in `src/app.py`). -/
def create_todo (s : Store) (reqBody : Option Body) : HResp × Store :=
  let data := reqBody.getD Body.emptyObj
  match pyTitleField data.title with
  | .error _ => ({ status := 500, body := .errObj "Internal server error" }, s)
  | .ok title =>
    if title = "" then
      ({ status := 400, body := .errObj "400 Bad Request: title is required" }, s)
    else
      let todo : Todo := { id := s.nextId, title := title, completed := false }
      ({ status := 201, body := .todoObj todo },
       { rows := s.rows ++ [todo], nextId := s.nextId + 1 })

/-- The `if "title" in data:` block of `update_todo`: validates and applies a
present `title` field, returning the failure response on a blank title (400) or
a non-string title (`AttributeError`, 500). -/
def applyTitle (todo : Todo) (v : Option Json) : Except HResp Todo :=
  match v with
  | none => .ok todo
  | some _ =>
    match pyTitleField v with
    | .error _ => .error { status := 500, body := .errObj "Internal server error" }
    | .ok newTitle =>
      if newTitle = "" then
        .error { status := 400, body := .errObj "400 Bad Request: title cannot be empty" }
      else
        .ok { todo with title := newTitle }

/-- The `if "completed" in data:` block of `update_todo`: a present value is
coerced with `bool(...)`. -/
def applyCompleted (todo : Todo) (v : Option Json) : Todo :=
  match v with
  | none => todo
  | some j => { todo with completed := j.truthy }

/-- `PATCH /api/todos/<int:todo_id>` (`update_todo` in `src/app.py`). -/
def update_todo (s : Store) (todo_id : Nat) (reqBody : Option Body) : HResp × Store :=
  let data := reqBody.getD Body.emptyObj
  match s.rows.find? (fun t => t.id == todo_id) with
  | none => ({ status := 404, body := .errObj "Not found" }, s)
  | some todo =>
    match applyTitle todo data.title with
    | .error resp => (resp, s)
    | .ok todo1 =>
      let todo2 := applyCompleted todo1 data.completed
      ({ status := 200, body := .todoObj todo2 },
       { s with rows := s.rows.map (fun t => if t.id == todo_id then todo2 else t) })

/-- `DELETE /api/todos/<int:todo_id>` (`delete_todo` in `src/app.py`). -/
def delete_todo (s : Store) (todo_id : Nat) : HResp × Store :=
  match s.rows.find? (fun t => t.id == todo_id) with
  | none => ({ status := 404, body := .errObj "Not found" }, s)
  | some _ =>
    ({ status := 204, body := .empty },
     { s with rows := s.rows.filter (fun t => t.id != todo_id) })

/-- One API request. -/
inductive Req where
  | list
  | post (reqBody : Option Body)
  | patch (i : Nat) (reqBody : Option Body)
  | del (i : Nat)
deriving Repr, DecidableEq

/-- Dispatch one request against the store. -/
def step (s : Store) : Req → HResp × Store
  | .list => (list_todos s, s)
  | .post b => create_todo s b
  | .patch i b => update_todo s i b
  | .del i => delete_todo s i

/-- Run a sequence of requests, threading the store. -/
def execAll (s : Store) : List Req → Store
  | [] => s
  | r :: rs => execAll (step s r).2 rs

/-- Every stored id is below the sequence counter: the inductive invariant
behind monotonic id allocation. -/
def StoreWF (s : Store) : Prop := ∀ t ∈ s.rows, t.id < s.nextId

/-- `true` iff every character of the string is whitespace; in particular
`wsOnly "" = true`, so `wsOnly x = false` says `x` is neither empty nor
whitespace-only. -/
def wsOnly (s : String) : Bool := s.toList.all isPyWs

/-- No row carries the id `i`, stated via `find?`. -/
theorem find_id_none (rows : List Todo) (i : Nat) (h : ∀ t ∈ rows, t.id ≠ i) :
    rows.find? (fun t => t.id == i) = none := by
  rw [List.find?_eq_none]
  intro t ht
  simpa using h t ht

/-- Claim C1, counterexample: on the empty store, `DELETE /api/todos/999` does
return 404, but the body is the 404 handler's fixed `{"error": "Not found"}`,
not the claimed `{"error": "todo not found"}` (the `abort` description is
discarded by `handle_not_found`). -/
theorem delete_missing_body_counterexample :
    (delete_todo emptyStore 999).1.status = 404 ∧
    (delete_todo emptyStore 999).1.body ≠ RespBody.errObj "todo not found" ∧
    (delete_todo emptyStore 999).1.body = RespBody.errObj "Not found" := by
  refine ⟨rfl, ?_, rfl⟩
  decide

/-- Claim C1 (amended): for every `DELETE /api/todos/{id}` request where no
record with that id exists, the response has status 404 and body
`{"error": "Not found"}`, and the store is unchanged (no record removed). -/
theorem delete_missing_404 (s : Store) (i : Nat) (h : ∀ t ∈ s.rows, t.id ≠ i) :
    delete_todo s i = ({ status := 404, body := RespBody.errObj "Not found" }, s) := by
  simp [delete_todo, find_id_none s.rows i h]

/-- Witness for `delete_missing_404` at the empty store and id 999. -/
theorem delete_missing_404_witness :
    delete_todo emptyStore 999 =
      ({ status := 404, body := RespBody.errObj "Not found" }, emptyStore) :=
  delete_missing_404 emptyStore 999 (by decide)

/-- The body's `title` field is absent, or a string that is empty or
whitespace-only (empty after trimming). -/
def TitleBlank (reqBody : Option Body) : Prop :=
  (reqBody.getD Body.emptyObj).title = none ∨
    ∃ t, (reqBody.getD Body.emptyObj).title = some (Json.str t) ∧ pyStrip t = ""

/-- Claim C2: every `POST /api/todos` whose body has no `title`, or whose
`title` is empty or whitespace-only, yields status 400 and leaves the store
unchanged (no record created). -/
theorem create_blank_title_400 (s : Store) (reqBody : Option Body)
    (h : TitleBlank reqBody) :
    (create_todo s reqBody).1.status = 400 ∧ (create_todo s reqBody).2 = s := by
  have hok : pyTitleField (reqBody.getD Body.emptyObj).title = .ok "" := by
    rcases h with h | ⟨t, ht, hblank⟩
    · rw [h]; rfl
    · rw [ht]
      by_cases h0 : t = ""
      · subst h0; rfl
      · simp [pyTitleField, pyOrEmptyStr, Json.truthy, h0, hblank]
  simp [create_todo, hok]

/-- Witness for `create_blank_title_400` with body `{"title": "   "}`. -/
theorem create_blank_title_400_witness :
    (create_todo emptyStore (some { title := some (Json.str "   "), completed := none })).1.status
        = 400 ∧
    (create_todo emptyStore (some { title := some (Json.str "   "), completed := none })).2
        = emptyStore :=
  create_blank_title_400 emptyStore (some { title := some (Json.str "   "), completed := none })
    (Or.inr ⟨"   ", rfl, by decide⟩)

/-- Claim C3: `GET /api/todos` returns 200 whose body lists exactly the stored
todos (a permutation of the rows), sorted by id in strictly descending order
(row ids are unique, `id` being the primary key), and the empty store yields
the empty array. -/
theorem list_todos_spec (s : Store) (h : (s.rows.map Todo.id).Nodup) :
    (list_todos s).status = 200 ∧
    ∃ l, (list_todos s).body = RespBody.todoList l ∧
      l.Perm s.rows ∧ l.Pairwise (fun a b => b.id < a.id) ∧ (s.rows = [] → l = []) := by
  have hperm : (List.insertionSort byIdDesc s.rows).Perm s.rows :=
    List.perm_insertionSort byIdDesc s.rows
  refine ⟨rfl, List.insertionSort byIdDesc s.rows, rfl, hperm, ?_, ?_⟩
  · have hs : (List.insertionSort byIdDesc s.rows).Pairwise byIdDesc :=
      List.sorted_insertionSort byIdDesc s.rows
    have hnd : ((List.insertionSort byIdDesc s.rows).map Todo.id).Nodup :=
      ((hperm.map Todo.id).nodup_iff).mpr h
    have hne : (List.insertionSort byIdDesc s.rows).Pairwise
        (fun a b => Todo.id a ≠ Todo.id b) := List.pairwise_map.mp hnd
    exact (hs.and hne).imp fun hab => lt_of_le_of_ne hab.1 fun e => hab.2 e.symm
  · intro he
    rw [he]
    rfl

/-- Witness for `list_todos_spec` at a two-row store. -/
theorem list_todos_spec_witness :
    (list_todos { rows := [{ id := 1, title := "A", completed := false },
        { id := 2, title := "B", completed := true }], nextId := 3 }).status = 200 ∧
    ∃ l, (list_todos { rows := [{ id := 1, title := "A", completed := false },
        { id := 2, title := "B", completed := true }], nextId := 3 }).body =
          RespBody.todoList l ∧
      l.Perm [{ id := 1, title := "A", completed := false },
        { id := 2, title := "B", completed := true }] ∧
      l.Pairwise (fun a b => b.id < a.id) ∧
      ([({ id := 1, title := "A", completed := false } : Todo),
        { id := 2, title := "B", completed := true }] = ([] : List Todo) → l = []) :=
  list_todos_spec { rows := [{ id := 1, title := "A", completed := false },
    { id := 2, title := "B", completed := true }], nextId := 3 } (by decide)

/-- Claim C4, counterexample: PATCH on the existing record id 1 (title `"A"`)
with body `{"title": "   "}` — the `title` field is present, yet the handler
answers 400 and the stored title stays `"A"`: a present-but-blank field does
not overwrite the stored value, contradicting the claim as stated. -/
theorem update_present_blank_no_overwrite :
    (update_todo { rows := [{ id := 1, title := "A", completed := false }], nextId := 2 } 1
      (some { title := some (Json.str "   "), completed := none })).1.status = 400 ∧
    (update_todo { rows := [{ id := 1, title := "A", completed := false }], nextId := 2 } 1
      (some { title := some (Json.str "   "), completed := none })).2.rows =
      [{ id := 1, title := "A", completed := false }] := by
  decide

/-- The `title` field passes `update_todo`'s validation: it is absent, or a
string that is non-empty after trimming. -/
def TitleFieldOK (v : Option Json) : Prop :=
  v = none ∨ ∃ t, v = some (Json.str t) ∧ pyStrip t ≠ ""

/-- The title after a partial update: the trimmed supplied string when the
field is present, the old value otherwise. -/
def expectedTitle (old : String) (v : Option Json) : String :=
  match v with
  | some (Json.str t) => pyStrip t
  | _ => old

/-- The completed flag after a partial update: the truthiness of the supplied
value when the field is present, the old value otherwise. -/
def expectedCompleted (old : Bool) (v : Option Json) : Bool :=
  match v with
  | none => old
  | some j => j.truthy

/-- Claim C4 (amended): for every PATCH on an existing record whose `title`
field, when present, is a string that is non-empty after trimming, the update
applies exactly the fields present in the body: an absent field leaves the
stored value unchanged, a present `title` overwrites with the trimmed string
(even when equal to the old value), and a present `completed` is coerced by
truthiness; a present title that is empty after trimming instead yields 400
with no change (see the counterexample). -/
theorem update_partial_fields (s : Store) (i : Nat) (reqBody : Option Body) (todo : Todo)
    (hf : s.rows.find? (fun t => t.id == i) = some todo)
    (ht : TitleFieldOK (reqBody.getD Body.emptyObj).title) :
    ∃ todo2,
      update_todo s i reqBody =
        ({ status := 200, body := RespBody.todoObj todo2 },
         { s with rows := s.rows.map fun t => if t.id == i then todo2 else t }) ∧
      todo2.id = todo.id ∧
      todo2.title = expectedTitle todo.title (reqBody.getD Body.emptyObj).title ∧
      todo2.completed = expectedCompleted todo.completed
        (reqBody.getD Body.emptyObj).completed := by
  have h1 : ∃ todo1, applyTitle todo (reqBody.getD Body.emptyObj).title = .ok todo1 ∧
      todo1.id = todo.id ∧
      todo1.title = expectedTitle todo.title (reqBody.getD Body.emptyObj).title ∧
      todo1.completed = todo.completed := by
    rcases ht with h | ⟨t, heq, hne⟩
    · refine ⟨todo, by rw [h]; rfl, rfl, by rw [h]; rfl, rfl⟩
    · have ht0 : t ≠ "" := fun e => hne (by rw [e]; rfl)
      refine ⟨{ todo with title := pyStrip t }, ?_, rfl, by rw [heq]; rfl, rfl⟩
      rw [heq]
      simp [applyTitle, pyTitleField, pyOrEmptyStr, Json.truthy, ht0, hne]
  rcases h1 with ⟨todo1, hok, hid, htt, htc⟩
  refine ⟨applyCompleted todo1 (reqBody.getD Body.emptyObj).completed, ?_, ?_, ?_, ?_⟩
  · simp [update_todo, hf, hok]
  · cases hc : (reqBody.getD Body.emptyObj).completed <;> simp [applyCompleted, hc, hid]
  · cases hc : (reqBody.getD Body.emptyObj).completed <;> simp [applyCompleted, hc, htt]
  · cases hc : (reqBody.getD Body.emptyObj).completed <;>
      simp [applyCompleted, expectedCompleted, hc, htc]

/-- Witness for `update_partial_fields`: PATCH `{"title": " B ", "completed":
true}` on the record id 1, title `"A"`. -/
theorem update_partial_fields_witness :
    ∃ todo2,
      update_todo { rows := [{ id := 1, title := "A", completed := false }], nextId := 2 } 1
          (some { title := some (Json.str " B "), completed := some (Json.bool true) }) =
        ({ status := 200, body := RespBody.todoObj todo2 },
         { rows := ([{ id := 1, title := "A", completed := false }] : List Todo).map
             fun t => if t.id == 1 then todo2 else t, nextId := 2 }) ∧
      todo2.id = 1 ∧
      todo2.title = expectedTitle "A" (some (Json.str " B ")) ∧
      todo2.completed = expectedCompleted false (some (Json.bool true)) :=
  update_partial_fields { rows := [{ id := 1, title := "A", completed := false }], nextId := 2 }
    1 (some { title := some (Json.str " B "), completed := some (Json.bool true) })
    { id := 1, title := "A", completed := false } (by decide)
    (Or.inr ⟨" B ", rfl, by decide⟩)

/-- Claim C5: PATCH with body exactly `{"completed": true}` on an existing
record sets only `completed`: the response and the replaced row keep `title`
byte-identical and `id` unchanged, and every other stored record is still
present unchanged. -/
theorem update_completed_only (s : Store) (i : Nat) (todo : Todo)
    (hf : s.rows.find? (fun t => t.id == i) = some todo) :
    update_todo s i (some { title := none, completed := some (Json.bool true) }) =
      ({ status := 200, body := RespBody.todoObj { todo with completed := true } },
       { s with rows := s.rows.map fun t =>
          if t.id == i then { todo with completed := true } else t }) ∧
    ({ todo with completed := true } : Todo).title = todo.title ∧
    ({ todo with completed := true } : Todo).id = todo.id ∧
    ∀ u ∈ s.rows, u.id ≠ i →
      u ∈ (update_todo s i
        (some { title := none, completed := some (Json.bool true) })).2.rows := by
  have hmain : update_todo s i (some { title := none, completed := some (Json.bool true) }) =
      ({ status := 200, body := RespBody.todoObj { todo with completed := true } },
       { s with rows := s.rows.map fun t =>
          if t.id == i then { todo with completed := true } else t }) := by
    simp [update_todo, hf, applyTitle, applyCompleted, Json.truthy]
  refine ⟨hmain, rfl, rfl, ?_⟩
  intro u hu hne
  rw [hmain]
  refine List.mem_map.mpr ⟨u, hu, ?_⟩
  simp [hne]

/-- Witness for `update_completed_only` at a two-row store. -/
theorem update_completed_only_witness :
    update_todo { rows := [{ id := 1, title := "A", completed := false },
        { id := 2, title := "B", completed := false }], nextId := 3 } 1
      (some { title := none, completed := some (Json.bool true) }) =
      ({ status := 200,
         body := RespBody.todoObj { id := 1, title := "A", completed := true } },
       { rows := ([{ id := 1, title := "A", completed := false },
           { id := 2, title := "B", completed := false }] : List Todo).map fun t =>
          if t.id == 1 then { id := 1, title := "A", completed := true } else t,
         nextId := 3 }) ∧
    ({ id := 1, title := "A", completed := true } : Todo).title = "A" ∧
    ({ id := 1, title := "A", completed := true } : Todo).id = 1 ∧
    ∀ u ∈ ([{ id := 1, title := "A", completed := false },
        { id := 2, title := "B", completed := false }] : List Todo), u.id ≠ 1 →
      u ∈ (update_todo { rows := [{ id := 1, title := "A", completed := false },
          { id := 2, title := "B", completed := false }], nextId := 3 } 1
        (some { title := none, completed := some (Json.bool true) })).2.rows :=
  update_completed_only { rows := [{ id := 1, title := "A", completed := false },
    { id := 2, title := "B", completed := false }], nextId := 3 } 1
    { id := 1, title := "A", completed := false } (by decide)

/-- Claim C6: PATCH on an id with no matching record answers 404 for every
body content (absent, malformed, empty title, anything) and leaves the store
unchanged. -/
theorem update_missing_404 (s : Store) (i : Nat) (reqBody : Option Body)
    (h : ∀ t ∈ s.rows, t.id ≠ i) :
    update_todo s i reqBody =
      ({ status := 404, body := RespBody.errObj "Not found" }, s) := by
  simp [update_todo, find_id_none s.rows i h]

/-- Witness for `update_missing_404`: id 5 on the empty store with a body
carrying an empty title still yields 404 (not 400). -/
theorem update_missing_404_witness :
    update_todo emptyStore 5 (some { title := some (Json.str ""), completed := none }) =
      ({ status := 404, body := RespBody.errObj "Not found" }, emptyStore) :=
  update_missing_404 emptyStore 5
    (some { title := some (Json.str ""), completed := none }) (by decide)

/-- A nonempty strip result contains a non-whitespace character, so it is not
whitespace-only. -/
theorem stripChars_not_all_ws (cs : List Char) (h : stripChars cs ≠ []) :
    (stripChars cs).all isPyWs = false := by
  have hB : (cs.dropWhile isPyWs).reverse.dropWhile isPyWs ≠ [] := by
    intro he
    exact h (by simp [stripChars, he])
  have hx : isPyWs (((cs.dropWhile isPyWs).reverse.dropWhile isPyWs).head hB) = false :=
    List.head_dropWhile_not isPyWs (cs.dropWhile isPyWs).reverse hB
  apply Bool.eq_false_iff.mpr
  intro hall
  rw [List.all_eq_true] at hall
  have hmem : ((cs.dropWhile isPyWs).reverse.dropWhile isPyWs).head hB ∈ stripChars cs := by
    simp only [stripChars, List.mem_reverse]
    exact List.head_mem hB
  rw [hall _ hmem] at hx
  exact absurd hx (by simp)

/-- A string produced by `pyStrip` that is nonempty is not whitespace-only. -/
theorem wsOnly_pyStrip (x : String) (h : pyStrip x ≠ "") : wsOnly (pyStrip x) = false := by
  have hne : stripChars x.toList ≠ [] := by
    intro he
    apply h
    show String.mk (stripChars x.toList) = ""
    rw [he]
  exact stripChars_not_all_ws x.toList hne

/-- Every string `pyTitleField` accepts is the strip of some string. -/
theorem pyTitleField_ok (v : Option Json) (t : String) (h : pyTitleField v = .ok t) :
    ∃ x, t = pyStrip x := by
  unfold pyTitleField at h
  split at h
  next s _ =>
    injection h with h
    exact ⟨s, h.symm⟩
  next => exact Except.noConfusion h

/-- What `applyTitle` guarantees about an accepted row: id and completed are
untouched, and the title is either untouched or a nonempty stripped string. -/
theorem applyTitle_ok (todo todo1 : Todo) (v : Option Json)
    (h : applyTitle todo v = .ok todo1) :
    todo1.id = todo.id ∧ todo1.completed = todo.completed ∧
      (todo1.title = todo.title ∨
        (todo1.title ≠ "" ∧ ∃ x, todo1.title = pyStrip x)) := by
  unfold applyTitle at h
  split at h
  · injection h with h
    rw [← h]
    exact ⟨rfl, rfl, Or.inl rfl⟩
  next j =>
    split at h
    · exact Except.noConfusion h
    next newTitle heq =>
      split at h
      · exact Except.noConfusion h
      next h0 =>
        injection h with h
        rw [← h]
        refine ⟨rfl, rfl, Or.inr ⟨h0, ?_⟩⟩
        simpa using pyTitleField_ok (some j) newTitle heq

/-- `applyCompleted` only touches the completed flag. -/
theorem applyCompleted_id_title (todo : Todo) (v : Option Json) :
    (applyCompleted todo v).id = todo.id ∧ (applyCompleted todo v).title = todo.title := by
  cases v <;> exact ⟨rfl, rfl⟩

/-- The two possible store outcomes of `create_todo`: unchanged (failure), or
one appended row carrying the fresh id and a validated title. -/
theorem create_todo_store_cases (s : Store) (b : Option Body) :
    (create_todo s b).2 = s ∨
    ∃ title, pyTitleField (b.getD Body.emptyObj).title = .ok title ∧ title ≠ "" ∧
      (create_todo s b).2 =
        { rows := s.rows ++ [{ id := s.nextId, title := title, completed := false }],
          nextId := s.nextId + 1 } := by
  cases hpt : pyTitleField (b.getD Body.emptyObj).title with
  | error e => left; simp [create_todo, hpt]
  | ok title =>
    by_cases h0 : title = ""
    · left; simp [create_todo, hpt, h0]
    · right; exact ⟨title, rfl, h0, by simp [create_todo, hpt, h0]⟩

/-- The two possible store outcomes of `update_todo`: unchanged (failure), or
the found row replaced in place. -/
theorem update_todo_store_cases (s : Store) (i : Nat) (b : Option Body) :
    (update_todo s i b).2 = s ∨
    ∃ todo todo1, s.rows.find? (fun t => t.id == i) = some todo ∧
      applyTitle todo (b.getD Body.emptyObj).title = .ok todo1 ∧
      (update_todo s i b).2 =
        { s with rows := s.rows.map fun t =>
            if t.id == i then applyCompleted todo1 (b.getD Body.emptyObj).completed
            else t } := by
  cases hf : s.rows.find? (fun t => t.id == i) with
  | none => left; simp [update_todo, hf]
  | some todo =>
    cases ha : applyTitle todo (b.getD Body.emptyObj).title with
    | error r => left; simp [update_todo, hf, ha]
    | ok todo1 => right; exact ⟨todo, todo1, rfl, ha, by simp [update_todo, hf, ha]⟩

/-- The two possible store outcomes of `delete_todo`: unchanged (not found), or
the rows with that id filtered out. -/
theorem delete_todo_store_cases (s : Store) (i : Nat) :
    (delete_todo s i).2 = s ∨
    (delete_todo s i).2 = { s with rows := s.rows.filter fun t => t.id != i } := by
  cases hf : s.rows.find? (fun t => t.id == i) with
  | none => left; simp [delete_todo, hf]
  | some todo => right; simp [delete_todo, hf]

/-- No step ever moves the id sequence backwards. -/
theorem step_nextId_mono (s : Store) (r : Req) : s.nextId ≤ (step s r).2.nextId := by
  cases r with
  | list => exact Nat.le_refl _
  | post b =>
    show s.nextId ≤ (create_todo s b).2.nextId
    rcases create_todo_store_cases s b with hc | ⟨title, _, _, hc⟩
    · rw [hc]
    · rw [hc]; exact Nat.le_succ _
  | patch i b =>
    show s.nextId ≤ (update_todo s i b).2.nextId
    rcases update_todo_store_cases s i b with hc | ⟨todo, todo1, _, _, hc⟩ <;> rw [hc]
  | del i =>
    show s.nextId ≤ (delete_todo s i).2.nextId
    rcases delete_todo_store_cases s i with hc | hc <;> rw [hc]

/-- `delete_todo` never touches the id sequence. -/
theorem delete_nextId (s : Store) (i : Nat) : (delete_todo s i).2.nextId = s.nextId := by
  rcases delete_todo_store_cases s i with hc | hc <;> rw [hc]

/-- Every step preserves the id invariant. -/
theorem step_WF (s : Store) (r : Req) (h : StoreWF s) : StoreWF (step s r).2 := by
  cases r with
  | list => exact h
  | post b =>
    show StoreWF (create_todo s b).2
    rcases create_todo_store_cases s b with hc | ⟨title, _, _, hc⟩
    · rw [hc]; exact h
    · rw [hc]
      intro t ht
      show t.id < s.nextId + 1
      simp only [List.mem_append, List.mem_singleton] at ht
      rcases ht with ht | ht
      · exact Nat.lt_succ_of_lt (h t ht)
      · rw [ht]; exact Nat.lt_succ_self _
  | patch i b =>
    show StoreWF (update_todo s i b).2
    rcases update_todo_store_cases s i b with hc | ⟨todo, todo1, hf, ha, hc⟩
    · rw [hc]; exact h
    · rw [hc]
      intro t ht
      show t.id < s.nextId
      simp only [List.mem_map] at ht
      obtain ⟨u, hu, hut⟩ := ht
      rw [← hut]
      by_cases he : (u.id == i) = true
      · rw [if_pos he]
        rw [(applyCompleted_id_title todo1 _).1, (applyTitle_ok todo todo1 _ ha).1]
        exact h todo (List.mem_of_find?_eq_some hf)
      · rw [if_neg he]
        exact h u hu
  | del i =>
    show StoreWF (delete_todo s i).2
    rcases delete_todo_store_cases s i with hc | hc
    · rw [hc]; exact h
    · rw [hc]
      intro t ht
      exact h t (List.mem_of_mem_filter ht)

/-- `update_todo` never changes the stored ids (in order, a fortiori as a set). -/
theorem update_ids_eq (s : Store) (i : Nat) (b : Option Body) :
    (update_todo s i b).2.rows.map Todo.id = s.rows.map Todo.id := by
  rcases update_todo_store_cases s i b with hc | ⟨todo, todo1, hf, ha, hc⟩
  · rw [hc]
  · rw [hc]
    show (s.rows.map fun t =>
        if (t.id == i) = true then applyCompleted todo1 ((b.getD Body.emptyObj).completed)
        else t).map Todo.id = s.rows.map Todo.id
    rw [List.map_map]
    apply List.map_congr_left
    intro u hu
    show Todo.id (if (u.id == i) = true then _ else u) = u.id
    by_cases he : (u.id == i) = true
    · rw [if_pos he]
      have h1 : todo.id = i := by simpa using List.find?_some hf
      have h2 : u.id = i := by simpa using he
      rw [(applyCompleted_id_title todo1 _).1, (applyTitle_ok todo todo1 _ ha).1, h1, h2]
    · rw [if_neg he]

/-- An id strictly below the sequence counter and absent from the table can
never be introduced by a step. -/
theorem step_keeps_id_absent (s : Store) (r : Req) (i : Nat)
    (hlt : i < s.nextId) (habs : i ∉ s.rows.map Todo.id) :
    i ∉ (step s r).2.rows.map Todo.id := by
  cases r with
  | list => exact habs
  | post b =>
    show i ∉ (create_todo s b).2.rows.map Todo.id
    rcases create_todo_store_cases s b with hc | ⟨title, _, _, hc⟩
    · rw [hc]; exact habs
    · rw [hc]
      intro hm
      simp only [List.map_append, List.map_cons, List.map_nil, List.mem_append,
        List.mem_singleton] at hm
      rcases hm with hm | hm
      · exact habs hm
      · exact absurd hm (Nat.ne_of_lt hlt)
  | patch j b =>
    show i ∉ (update_todo s j b).2.rows.map Todo.id
    rw [update_ids_eq]
    exact habs
  | del j =>
    show i ∉ (delete_todo s j).2.rows.map Todo.id
    rcases delete_todo_store_cases s j with hc | hc
    · rw [hc]; exact habs
    · rw [hc]
      intro hm
      simp only [List.mem_map] at hm
      obtain ⟨u, hu, hui⟩ := hm
      exact habs (List.mem_map.mpr ⟨u, List.mem_of_mem_filter hu, hui⟩)

/-- Right after `delete_todo s i`, no row carries the id `i`. -/
theorem delete_id_gone (s : Store) (i : Nat) :
    i ∉ (delete_todo s i).2.rows.map Todo.id := by
  cases hf : s.rows.find? (fun t => t.id == i) with
  | none =>
    have hall := List.find?_eq_none.mp hf
    have hs : (delete_todo s i).2 = s := by simp [delete_todo, hf]
    rw [hs]
    intro hm
    obtain ⟨u, hu, hui⟩ := List.mem_map.mp hm
    have hne : u.id ≠ i := by simpa using hall u hu
    exact hne hui
  | some todo =>
    have hs : (delete_todo s i).2 = { s with rows := s.rows.filter fun t => t.id != i } := by
      simp [delete_todo, hf]
    rw [hs]
    intro hm
    obtain ⟨u, hu, hui⟩ := List.mem_map.mp hm
    have := List.of_mem_filter hu
    rw [hui] at this
    simp at this

/-- An absent id below the counter stays absent over any request sequence. -/
theorem execAll_keeps_id_absent (i : Nat) (rs : List Req) :
    ∀ s : Store, i < s.nextId → i ∉ s.rows.map Todo.id →
      i ∉ (execAll s rs).rows.map Todo.id := by
  induction rs with
  | nil => intro s _ habs; exact habs
  | cons r rs ih =>
    intro s hlt habs
    exact ih _ (Nat.lt_of_lt_of_le hlt (step_nextId_mono s r))
      (step_keeps_id_absent s r i hlt habs)

/-- The id invariant holds in every state reachable from a well-formed state. -/
theorem execAll_WF (rs : List Req) : ∀ s : Store, StoreWF s → StoreWF (execAll s rs) := by
  induction rs with
  | nil => intro s h; exact h
  | cons r rs ih => intro s h; exact ih _ (step_WF s r h)

/-- Claim C7: id allocation is monotonic.  In any state satisfying the id
invariant (which holds in every state reachable from the empty store): the id
sequence never decreases and the invariant is preserved by every request; a
successful create returns a record whose id is the current sequence value,
strictly greater than every stored id and fresh, and bumps the sequence; an
update never changes any stored id; and an id below the sequence value, once
deleted, never reappears under any later request sequence. -/
theorem id_allocation_monotonic (s : Store) (h : StoreWF s) :
    (∀ rs, StoreWF (execAll emptyStore rs)) ∧
    (∀ r, s.nextId ≤ (step s r).2.nextId ∧ StoreWF (step s r).2) ∧
    (∀ b t s', create_todo s b = ({ status := 201, body := RespBody.todoObj t }, s') →
      t.id = s.nextId ∧ (∀ u ∈ s.rows, u.id < t.id) ∧ t.id ∉ s.rows.map Todo.id ∧
        s'.nextId = s.nextId + 1) ∧
    (∀ i b, (update_todo s i b).2.rows.map Todo.id = s.rows.map Todo.id) ∧
    (∀ i, i < s.nextId → ∀ rs, i ∉ (execAll (delete_todo s i).2 rs).rows.map Todo.id) := by
  refine ⟨?_, ?_, ?_, ?_, ?_⟩
  · intro rs
    exact execAll_WF rs emptyStore (fun t ht => absurd ht (List.not_mem_nil t))
  · intro r
    exact ⟨step_nextId_mono s r, step_WF s r h⟩
  · intro b t s' hc
    cases hpt : pyTitleField ((b.getD Body.emptyObj)).title with
    | error e =>
      have hce : create_todo s b =
          ({ status := 500, body := .errObj "Internal server error" }, s) := by
        simp [create_todo, hpt]
      rw [hce] at hc
      simp at hc
    | ok title =>
      by_cases h0 : title = ""
      · have hce : create_todo s b =
            ({ status := 400, body := .errObj "400 Bad Request: title is required" }, s) := by
          simp [create_todo, hpt, h0]
        rw [hce] at hc
        simp at hc
      · have hce : create_todo s b =
            ({ status := 201,
               body := .todoObj { id := s.nextId, title := title, completed := false } },
             { rows := s.rows ++ [{ id := s.nextId, title := title, completed := false }],
               nextId := s.nextId + 1 }) := by
          simp [create_todo, hpt, h0]
        rw [hce] at hc
        simp only [Prod.mk.injEq, HResp.mk.injEq, RespBody.todoObj.injEq, true_and] at hc
        obtain ⟨hct, hcs⟩ := hc
        rw [← hct]
        refine ⟨rfl, fun u hu => h u hu, ?_, ?_⟩
        · intro hm
          obtain ⟨u, hu, hui⟩ := List.mem_map.mp hm
          exact Nat.ne_of_lt (h u hu) hui
        · rw [← hcs]
  · intro i b
    exact update_ids_eq s i b
  · intro i hlt rs
    apply execAll_keeps_id_absent i rs
    · rw [delete_nextId]
      exact hlt
    · exact delete_id_gone s i

/-- Witness for `id_allocation_monotonic` at the empty store. -/
theorem id_allocation_monotonic_witness :
    (∀ rs, StoreWF (execAll emptyStore rs)) ∧
    (∀ r, emptyStore.nextId ≤ (step emptyStore r).2.nextId ∧ StoreWF (step emptyStore r).2) ∧
    (∀ b t s', create_todo emptyStore b = ({ status := 201, body := RespBody.todoObj t }, s') →
      t.id = emptyStore.nextId ∧ (∀ u ∈ emptyStore.rows, u.id < t.id) ∧
        t.id ∉ emptyStore.rows.map Todo.id ∧ s'.nextId = emptyStore.nextId + 1) ∧
    (∀ i b, (update_todo emptyStore i b).2.rows.map Todo.id = emptyStore.rows.map Todo.id) ∧
    (∀ i, i < emptyStore.nextId →
      ∀ rs, i ∉ (execAll (delete_todo emptyStore i).2 rs).rows.map Todo.id) :=
  id_allocation_monotonic emptyStore (fun t ht => absurd ht (List.not_mem_nil t))

/-- Every stored title is neither empty nor whitespace-only. -/
def TitlesOK (s : Store) : Prop := ∀ t ∈ s.rows, wsOnly t.title = false

/-- Every step preserves the title invariant. -/
theorem step_TitlesOK (s : Store) (r : Req) (h : TitlesOK s) : TitlesOK (step s r).2 := by
  cases r with
  | list => exact h
  | post b =>
    show TitlesOK (create_todo s b).2
    rcases create_todo_store_cases s b with hc | ⟨title, hok, h0, hc⟩
    · rw [hc]; exact h
    · rw [hc]
      intro t ht
      simp only [List.mem_append, List.mem_singleton] at ht
      rcases ht with ht | ht
      · exact h t ht
      · rw [ht]
        obtain ⟨x, hx⟩ := pyTitleField_ok _ title hok
        show wsOnly title = false
        rw [hx]
        exact wsOnly_pyStrip x (hx ▸ h0)
  | patch i b =>
    show TitlesOK (update_todo s i b).2
    rcases update_todo_store_cases s i b with hc | ⟨todo, todo1, hf, ha, hc⟩
    · rw [hc]; exact h
    · rw [hc]
      intro t ht
      simp only [List.mem_map] at ht
      obtain ⟨u, hu, hut⟩ := ht
      rw [← hut]
      by_cases he : (u.id == i) = true
      · rw [if_pos he]
        show wsOnly (applyCompleted todo1 ((b.getD Body.emptyObj).completed)).title = false
        rw [(applyCompleted_id_title todo1 _).2]
        rcases (applyTitle_ok todo todo1 _ ha).2.2 with hsame | ⟨hne, x, hx⟩
        · rw [hsame]
          exact h todo (List.mem_of_find?_eq_some hf)
        · rw [hx]
          exact wsOnly_pyStrip x (hx ▸ hne)
      · rw [if_neg he]
        exact h u hu
  | del i =>
    show TitlesOK (delete_todo s i).2
    rcases delete_todo_store_cases s i with hc | hc
    · rw [hc]; exact h
    · rw [hc]
      intro t ht
      exact h t (List.mem_of_mem_filter ht)

/-- The title invariant holds after any request sequence. -/
theorem execAll_TitlesOK (rs : List Req) : ∀ s : Store, TitlesOK s → TitlesOK (execAll s rs) := by
  induction rs with
  | nil => intro s h; exact h
  | cons r rs ih => intro s h; exact ih _ (step_TitlesOK s r h)

/-- Claim C8: in every state reachable from the empty store by any sequence of
requests, no stored record has a title that is empty or whitespace-only. -/
theorem titles_never_blank (rs : List Req) (t : Todo)
    (ht : t ∈ (execAll emptyStore rs).rows) :
    t.title ≠ "" ∧ wsOnly t.title = false := by
  have h := execAll_TitlesOK rs emptyStore (fun u hu => absurd hu (List.not_mem_nil u)) t ht
  refine ⟨?_, h⟩
  intro he
  rw [he] at h
  exact absurd h (by decide)

/-- Witness for `titles_never_blank`: after `POST {"title": " A "}`, the single
stored record (trimmed title `"A"`) is neither empty nor whitespace-only. -/
theorem titles_never_blank_witness :
    (({ id := 1, title := "A", completed := false } : Todo)).title ≠ "" ∧
    wsOnly ({ id := 1, title := "A", completed := false } : Todo).title = false :=
  titles_never_blank [Req.post (some { title := some (Json.str " A "), completed := none })]
    { id := 1, title := "A", completed := false } (by decide)

/-- Appending a row with a strictly maximal id and sorting by descending id
puts that row first. -/
theorem insertionSort_head_max (rows : List Todo) (t : Todo)
    (hmax : ∀ u ∈ rows, u.id < t.id) :
    ∃ rest, List.insertionSort byIdDesc (rows ++ [t]) = t :: rest := by
  have hperm : (List.insertionSort byIdDesc (rows ++ [t])).Perm (rows ++ [t]) :=
    List.perm_insertionSort byIdDesc (rows ++ [t])
  have htmem : t ∈ List.insertionSort byIdDesc (rows ++ [t]) :=
    hperm.mem_iff.mpr (by simp)
  have hsorted : (List.insertionSort byIdDesc (rows ++ [t])).Pairwise byIdDesc :=
    List.sorted_insertionSort byIdDesc (rows ++ [t])
  cases hl : List.insertionSort byIdDesc (rows ++ [t]) with
  | nil =>
    rw [hl] at htmem
    exact absurd htmem (List.not_mem_nil t)
  | cons x xs =>
    refine ⟨xs, ?_⟩
    rw [hl] at htmem hsorted hperm
    have hxmem : x ∈ rows ++ [t] := hperm.mem_iff.mp (List.mem_cons_self x xs)
    have hx : x = t := by
      rcases List.mem_append.mp hxmem with hxr | hxt
      · rcases List.mem_cons.mp htmem with he | hm
        · exact he.symm
        · have hle : t.id ≤ x.id := List.rel_of_sorted_cons hsorted t hm
          exact absurd (Nat.lt_of_le_of_lt hle (hmax x hxr)) (Nat.lt_irrefl _)
      · simpa using hxt
    rw [hx]

/-- Claim C9: on any well-formed store, `POST {"title": "Buy milk"}` answers
201 with `{"id": N, "title": "Buy milk", "completed": false}` for a fresh id
`N`, and the subsequent `GET /api/todos` lists that exact object first. -/
theorem post_roundtrip_first (s : Store) (h : StoreWF s) :
    ∃ N s',
      create_todo s (some { title := some (Json.str "Buy milk"), completed := none }) =
        ({ status := 201,
           body := RespBody.todoObj { id := N, title := "Buy milk", completed := false } },
         s') ∧
      N ∉ s.rows.map Todo.id ∧
      ∃ rest, (list_todos s').body =
        RespBody.todoList ({ id := N, title := "Buy milk", completed := false } :: rest) := by
  have h0 : ("Buy milk" : String) ≠ "" := by decide
  have hps : pyStrip "Buy milk" = "Buy milk" := by decide
  have hpt : pyTitleField (some (Json.str "Buy milk")) = .ok "Buy milk" := by
    simp [pyTitleField, pyOrEmptyStr, Json.truthy, h0, hps]
  have hce : create_todo s (some { title := some (Json.str "Buy milk"), completed := none }) =
      ({ status := 201,
         body := .todoObj { id := s.nextId, title := "Buy milk", completed := false } },
       { rows := s.rows ++ [{ id := s.nextId, title := "Buy milk", completed := false }],
         nextId := s.nextId + 1 }) := by
    simp [create_todo, hpt, h0]
  refine ⟨s.nextId, _, hce, ?_, ?_⟩
  · intro hm
    obtain ⟨u, hu, hui⟩ := List.mem_map.mp hm
    exact Nat.ne_of_lt (h u hu) hui
  · obtain ⟨rest, hr⟩ := insertionSort_head_max s.rows
      { id := s.nextId, title := "Buy milk", completed := false } (fun u hu => h u hu)
    refine ⟨rest, ?_⟩
    show RespBody.todoList (List.insertionSort byIdDesc
      (s.rows ++ [{ id := s.nextId, title := "Buy milk", completed := false }])) = _
    rw [hr]

/-- Witness for `post_roundtrip_first` at the empty store. -/
theorem post_roundtrip_first_witness :
    ∃ N s',
      create_todo emptyStore (some { title := some (Json.str "Buy milk"), completed := none }) =
        ({ status := 201,
           body := RespBody.todoObj { id := N, title := "Buy milk", completed := false } },
         s') ∧
      N ∉ emptyStore.rows.map Todo.id ∧
      ∃ rest, (list_todos s').body =
        RespBody.todoList ({ id := N, title := "Buy milk", completed := false } :: rest) :=
  post_roundtrip_first emptyStore (fun t ht => absurd ht (List.not_mem_nil t))

/-- Claim C10: a supplied title whose trimmed form is non-empty is stored and
returned trimmed, by `POST /api/todos` and by `PATCH /api/todos/{id}` alike, so
the returned title may differ from the supplied one. -/
theorem titles_stored_trimmed (s : Store) (x : String) (h : pyStrip x ≠ "") :
    create_todo s (some { title := some (Json.str x), completed := none }) =
      ({ status := 201,
         body := RespBody.todoObj { id := s.nextId, title := pyStrip x, completed := false } },
       { rows := s.rows ++ [{ id := s.nextId, title := pyStrip x, completed := false }],
         nextId := s.nextId + 1 }) ∧
    (∀ i todo, s.rows.find? (fun u => u.id == i) = some todo →
      update_todo s i (some { title := some (Json.str x), completed := none }) =
        ({ status := 200, body := RespBody.todoObj { todo with title := pyStrip x } },
         { s with rows := s.rows.map fun u =>
             if u.id == i then { todo with title := pyStrip x } else u })) := by
  have hx0 : x ≠ "" := fun e => h (by rw [e]; rfl)
  have hpt : pyTitleField (some (Json.str x)) = .ok (pyStrip x) := by
    simp [pyTitleField, pyOrEmptyStr, Json.truthy, hx0]
  constructor
  · simp [create_todo, hpt, h]
  · intro i todo hf
    have ha : applyTitle todo (some (Json.str x)) = .ok { todo with title := pyStrip x } := by
      simp [applyTitle, hpt, h]
    simp [update_todo, hf, ha, applyCompleted]

/-- Witness for `titles_stored_trimmed`: `"  Buy milk "` on a one-row store. -/
theorem titles_stored_trimmed_witness :
    create_todo { rows := [{ id := 1, title := "A", completed := false }], nextId := 2 }
        (some { title := some (Json.str "  Buy milk "), completed := none }) =
      ({ status := 201,
         body := RespBody.todoObj
           { id := 2, title := pyStrip "  Buy milk ", completed := false } },
       { rows := [{ id := 1, title := "A", completed := false }] ++
           [{ id := 2, title := pyStrip "  Buy milk ", completed := false }],
         nextId := 3 }) ∧
    (∀ i todo, ([{ id := 1, title := "A", completed := false }] : List Todo).find?
        (fun u => u.id == i) = some todo →
      update_todo { rows := [{ id := 1, title := "A", completed := false }], nextId := 2 } i
          (some { title := some (Json.str "  Buy milk "), completed := none }) =
        ({ status := 200,
           body := RespBody.todoObj { todo with title := pyStrip "  Buy milk " } },
         { rows := ([{ id := 1, title := "A", completed := false }] : List Todo).map fun u =>
             if u.id == i then { todo with title := pyStrip "  Buy milk " } else u,
           nextId := 2 })) :=
  titles_stored_trimmed { rows := [{ id := 1, title := "A", completed := false }], nextId := 2 }
    "  Buy milk " (by decide)
